import Mathlib

/-!
Verification of the damt acronym-management tool (damt.ts).

The development shallowly embeds the database-location resolution logic
(getDBEnv, getLocalDBFile, findDbFileLocation), the query layer
(dbSearch, dbLatestRecords over a list-of-rows model of the ACRONYMS
table, with SQL LIKE/NOCASE matching and ORDER BY modelled by an
explicit sort), the timestamp formatter (getDisplayDateTime), and an
event-trace model of the main entry point and execCliArgs for the
resource-lifecycle and exit-code properties.
-/

namespace Damt

/-! Filesystem and environment model for the locator functions. -/

/-- Kind of filesystem object found at a path: a regular file, a
directory, or nothing. -/
inductive FileKind
  | file
  | dir
  | missing
deriving DecidableEq, Repr

/-- Process environment: the value of the ACRODB variable, `none` when
the variable is unset. -/
structure Env where
  acrodb : Option String
deriving DecidableEq, Repr

/-- A filesystem state, mapping each path to what is found there. -/
structure FileSys where
  kind : String → FileKind

/-- Embeds existsFile (deno_mod): true exactly when the path names an
existing regular file (a directory or a missing path yields false). -/
def existsFile (fs : FileSys) (p : String) : Bool :=
  fs.kind p == FileKind.file

/-- Embeds getDBEnv: reads ACRODB, an unset variable coalescing to the
empty string via the JavaScript or-else operator, and returns the path
only when existsFile accepts it. -/
def getDBEnv (env : Env) (fs : FileSys) : Option String :=
  let dbFile := env.acrodb.getD ""
  if existsFile fs dbFile then some dbFile else none

/-- Path join used for the co-located database file. -/
def joinPath (dir file : String) : String := dir ++ "/" ++ file

/-- Embeds getLocalDBFile: the directory holding the running program
joined with the fixed name acronyms.db, accepted only when existsFile
holds of it. -/
def getLocalDBFile (fs : FileSys) (mainDir : String) : Option String :=
  let appDB := joinPath mainDir "acronyms.db"
  if existsFile fs appDB then some appDB else none

/-- JavaScript or-else on optional strings: an absent value or the
empty string (both falsy) select the right operand. -/
def jsOrString : Option String → Option String → Option String
  | some s, b => if s = "" then b else some s
  | none, b => b

/-- Embeds findDbFileLocation: environment source first, then the
co-located file, rejecting when neither yields a truthy path. -/
def findDbFileLocation (env : Env) (fs : FileSys) (mainDir : String) :
    Except String String :=
  match jsOrString (getDBEnv env fs) (getLocalDBFile fs mainDir) with
  | some p =>
      if p = "" then
        Except.error "findDbFileLocation failed to locate a valid database filename."
      else Except.ok p
  | none =>
      Except.error "findDbFileLocation failed to locate a valid database filename."

/-! Data model of the ACRONYMS table. -/

/-- A stored row of the ACRONYMS table: every text column and the
Changed column may hold NULL, modelled by `Option`. -/
structure Row where
  rowid : Int
  acronym : Option String
  definition : Option String
  source : Option String
  description : Option String
  changed : Option Int
deriving DecidableEq, Repr

/-- Result of ifnull(Changed, two single quotes): the stored epoch when
Changed is non-NULL, otherwise the empty text value. -/
inductive ChangedField
  | epoch (n : Int)
  | emptyText
deriving DecidableEq, Repr

/-- Coalescing applied to the Changed column in both SELECT statements. -/
def coalesceChanged : Option Int → ChangedField
  | some n => ChangedField.epoch n
  | none => ChangedField.emptyText

/-- A row as surfaced to callers by dbSearch and dbLatestRecords: each
textual column wrapped in ifnull, so NULL becomes the empty string. -/
structure AcronymRecord where
  rowid : Int
  acronym : String
  definition : String
  source : String
  description : String
  changed : ChangedField
deriving DecidableEq, Repr

/-- The SELECT projection shared by dbSearch and dbLatestRecords:
rowid plus the four ifnull-coalesced text columns and the coalesced
Changed column. -/
def projectRow (r : Row) : AcronymRecord where
  rowid := r.rowid
  acronym := r.acronym.getD ""
  definition := r.definition.getD ""
  source := r.source.getD ""
  description := r.description.getD ""
  changed := coalesceChanged r.changed

/-! SQL LIKE with NOCASE, as SQLite evaluates it: percent matches any
sequence, underscore any single character, and ordinary characters are
compared after ASCII case folding. -/

/-- ASCII case folding on a Unicode codepoint: the letters A to Z map
to their lowercase forms, every other codepoint is unchanged. -/
def lowerCode (n : Nat) : Nat :=
  if 65 ≤ n ∧ n ≤ 90 then n + 32 else n

/-- Comparison key of one character under NOCASE matching. -/
def charKey (c : Char) : Nat := lowerCode c.toNat

/-- LIKE pattern matching over character lists. -/
def likeChars : List Char → List Char → Bool
  | [], s => s.isEmpty
  | c :: ps, s =>
      if c = '%' then s.tails.any (fun suffix => likeChars ps suffix)
      else
        match s with
        | [] => false
        | d :: ds => (c == '_' || charKey c == charKey d) && likeChars ps ds

/-- LIKE pattern matching over strings, as used in the WHERE clause of
the search query. -/
def likeMatch (pattern subject : String) : Bool :=
  likeChars pattern.toList subject.toList

/-- The WHERE clause of the search query: Acronym like the bound
pattern; a NULL Acronym compares to NULL and is not selected. -/
def matchesAcronym (pattern : String) (r : Row) : Bool :=
  match r.acronym with
  | some a => likeMatch pattern a
  | none => false

/-! ORDER BY model.  SQLite orders NULL before every text value and
compares text bytewise, which on valid UTF-8 agrees with codepoint
lexicographic order, hence with the order on `String`. -/

/-- SQLite ascending order on a nullable text column. -/
def optStrLe : Option String → Option String → Prop
  | none, _ => True
  | some _, none => False
  | some s, some t => s ≤ t

instance : ∀ a b, Decidable (optStrLe a b)
  | none, _ => isTrue trivial
  | some _, none => isFalse (fun h => h)
  | some s, some t => inferInstanceAs (Decidable (s ≤ t))

/-- Order by Source ascending, used by the search query. -/
def sourceLe (a b : Row) : Prop := optStrLe a.source b.source

instance : DecidableRel sourceLe := fun a b =>
  inferInstanceAs (Decidable (optStrLe a.source b.source))

instance : IsTotal Row sourceLe where
  total a b := by
    unfold sourceLe
    cases a.source with
    | none => exact Or.inl trivial
    | some s =>
        cases b.source with
        | none => exact Or.inr trivial
        | some t => exact le_total s t

instance : IsTrans Row sourceLe where
  trans a b c hab hbc := by
    unfold sourceLe at *
    cases ha : a.source with
    | none => trivial
    | some s =>
        cases hb : b.source with
        | none => rw [ha, hb] at hab; exact absurd hab (fun h => h)
        | some t =>
            cases hc : c.source with
            | none => rw [hb, hc] at hbc; exact absurd hbc (fun h => h)
            | some u =>
                rw [ha, hb] at hab
                rw [hb, hc] at hbc
                exact le_trans hab hbc

/-- Order by rowid descending, used by the latest-records query. -/
def rowidGe (a b : Row) : Prop := b.rowid ≤ a.rowid

instance : DecidableRel rowidGe := fun a b =>
  inferInstanceAs (Decidable (b.rowid ≤ a.rowid))

instance : IsTotal Row rowidGe where
  total a b := (le_total b.rowid a.rowid).imp id id

instance : IsTrans Row rowidGe where
  trans _ _ _ hab hbc := le_trans hbc hab

/-! The two prepared queries.  Each consists of a fixed SQL template
and a list of bound parameters; the search term is only ever passed as
a parameter, never spliced into the SQL text. -/

/-- The fixed SQL templates prepared by the program. -/
inductive SqlTemplate
  | searchByAcronym
  | latestRecords
deriving DecidableEq, Repr

/-- A prepared query: a fixed template together with bound parameters. -/
structure PreparedQuery where
  template : SqlTemplate
  params : List String
deriving DecidableEq, Repr

/-- Embeds the prepareQuery and iter calls of dbSearch: the constant
search template with the search term bound as the single parameter. -/
def dbSearchPrepared (searchItem : String) : PreparedQuery where
  template := SqlTemplate.searchByAcronym
  params := [searchItem]

/-- Result rows of the search query on a table state: rows whose
Acronym matches the pattern under LIKE with NOCASE, ordered by Source
ascending, projected through the ifnull coalescing. -/
def dbSearch (pattern : String) (db : List Row) : List AcronymRecord :=
  (List.insertionSort sourceLe (db.filter (matchesAcronym pattern))).map projectRow

/-- Result rows of the latest-records query: all rows ordered by rowid
descending, truncated to five, projected through the ifnull
coalescing. -/
def dbLatestRecords (db : List Row) : List AcronymRecord :=
  ((List.insertionSort rowidGe db).take 5).map projectRow

/-! Timestamp formatter.  getDisplayDateTime converts epoch seconds via
Temporal.Instant.fromEpochSeconds, which accepts exactly the instants
within one hundred million days of the epoch and throws beyond them;
the catch clause turns any such failure into the UNKNOWN sentinel.
The rendering itself is delegated to the platform locale API with the
fixed option set short weekday, numeric day, long month, numeric year,
24-hour time; it is embedded here as the display template documented
in the source (UTC reference frame), computed by the standard
Gregorian calendar conversion. -/

/-- Largest epoch-seconds magnitude representable by a Temporal
instant: one hundred million days of 86400 seconds. -/
def temporalMaxEpochSeconds : Int := 8640000000000

/-- Gregorian civil date (year, month, day) of a day count relative to
1970-01-01. -/
def civilFromDays (z0 : Int) : Int × Int × Int :=
  let z := z0 + 719468
  let era : Int := (if 0 ≤ z then z else z - 146096) / 146097
  let doe : Int := z - era * 146097
  let yoe : Int := (doe - doe / 1460 + doe / 36524 - doe / 146096) / 365
  let y : Int := yoe + era * 400
  let doy : Int := doe - (365 * yoe + yoe / 4 - yoe / 100)
  let mp : Int := (5 * doy + 2) / 153
  let d : Int := doy - (153 * mp + 2) / 5 + 1
  let m : Int := mp + (if mp < 10 then 3 else -9)
  (y + (if m ≤ 2 then 1 else 0), m, d)

/-- Day of week of a day count relative to 1970-01-01 (a Thursday);
0 denotes Sunday. -/
def weekdayFromDays (z : Int) : Int := (z + 4).emod 7

/-- Short weekday names of the display template. -/
def weekdayShortName : Int → String
  | 0 => "Sun"
  | 1 => "Mon"
  | 2 => "Tue"
  | 3 => "Wed"
  | 4 => "Thu"
  | 5 => "Fri"
  | 6 => "Sat"
  | _ => "UNKNOWN"

/-- Full month names of the display template. -/
def monthLongName : Int → String
  | 1 => "January"
  | 2 => "February"
  | 3 => "March"
  | 4 => "April"
  | 5 => "May"
  | 6 => "June"
  | 7 => "July"
  | 8 => "August"
  | 9 => "September"
  | 10 => "October"
  | 11 => "November"
  | 12 => "December"
  | _ => "UNKNOWN"

/-- Two-digit rendering of a time component. -/
def pad2 (n : Int) : String :=
  if n < 10 then "0" ++ toString n else toString n

/-- Embeds getDisplayDateTime: an out-of-range epoch makes the
Temporal conversion throw and the catch clause yields UNKNOWN;
otherwise the instant is rendered with the fixed display template.
The embedding is a total function, so no exception ever reaches the
caller. -/
def getDisplayDateTime (epochTime : Int) : String :=
  if epochTime < -temporalMaxEpochSeconds ∨ temporalMaxEpochSeconds < epochTime then
    "UNKNOWN"
  else
    let days := epochTime.ediv 86400
    let secs := epochTime.emod 86400
    let ymd := civilFromDays days
    weekdayShortName (weekdayFromDays days) ++ ", " ++ toString ymd.2.2 ++ " " ++
      monthLongName ymd.2.1 ++ " " ++ toString ymd.1 ++ " at " ++
      pad2 (secs.ediv 3600) ++ ":" ++ pad2 ((secs.emod 3600).ediv 60) ++ ":" ++
      pad2 (secs.emod 60)

/-! Trace model of the entry point.  Console output, database opening
and closing, and process termination are recorded as events; the main
body and execCliArgs are embedded as functions building the event list
of one program run. -/

/-- One line (or block) of console output. -/
inductive OutLine
  | recordBlock (r : AcronymRecord)
  | searchSummary (total : Nat) (term : String) (found : Nat)
  | latestSummary (shown : Nat) (total : Nat)
  | tryingSearch (term : String)
  | versionInfo
  | dbInfo
  | helpText
  | fatalDbNotFound
deriving DecidableEq, Repr

/-- Observable events of one program run. -/
inductive Event
  | openDb
  | closeDb
  | exit (code : Nat)
  | out (line : OutLine)
deriving DecidableEq, Repr

/-- Truthiness of the four parsed command-line options as tested by
execCliArgs. -/
structure CliFlags where
  search : Bool
  latest : Bool
  help : Bool
  version : Bool
deriving DecidableEq, Repr

/-- Console output of dbSearch: the isString guard on the search item
rejects an absent argument, in which case the function body is skipped
whole and nothing is printed, not even the summary line; with a string
argument every matching record block is printed followed by the
match-count summary. -/
def dbSearchOutput (searchItem : Option String) (db : List Row) : List OutLine :=
  match searchItem with
  | none => []
  | some s =>
      ((dbSearch s db).map OutLine.recordBlock) ++
        [OutLine.searchSummary db.length s (dbSearch s db).length]

/-- Console output of dbLatestRecords: each record block followed by
the count summary. -/
def dbLatestOutput (db : List Row) : List OutLine :=
  ((dbLatestRecords db).map OutLine.recordBlock) ++
    [OutLine.latestSummary (dbLatestRecords db).length db.length]

/-- Sqlite session handle state.  Close on the handle marks it closed;
the library guards on its open flag, so closing an already-closed
session changes nothing and raises nothing. -/
structure Session where
  isOpen : Bool
deriving DecidableEq, Repr

/-- Close on a session handle. -/
def closeSession (_s : Session) : Session where
  isOpen := false

/-- Embeds execCliArgs on an open database: the first truthy option
among search, latest, help and version runs its action, closes the
database and exits with code 0; with no truthy option the function
returns to the caller.  The boolean result records whether the process
exited. -/
def execCliArgsTrace (flags : CliFlags) (args : List String) (db : List Row) :
    List Event × Bool :=
  if flags.search then
    ((dbSearchOutput (args[1]?) db).map Event.out ++
      [Event.closeDb, Event.exit 0], true)
  else if flags.latest then
    ((dbLatestOutput db).map Event.out ++ [Event.closeDb, Event.exit 0], true)
  else if flags.help then
    ([Event.out OutLine.helpText, Event.closeDb, Event.exit 0], true)
  else if flags.version then
    ([Event.out OutLine.versionInfo, Event.closeDb, Event.exit 0], true)
  else ([], false)

/-- Tail of the main body after execCliArgs returns without exiting:
a single bare argument is retried as an implicit search, otherwise the
version banner, database summary and help text are printed; either way
the database is then closed. -/
def mainRest (args : List String) (db : List Row) : List Event :=
  (if args.length = 1 then
      Event.out (OutLine.tryingSearch (args.headD "")) ::
        (dbSearchOutput (args[0]?) db).map Event.out
    else
      [Event.out OutLine.versionInfo, Event.out OutLine.dbInfo,
        Event.out OutLine.helpText]) ++ [Event.closeDb]

/-- Embeds the main body: a failed location resolution prints the
fatal diagnostic and exits with code 1 before any database is opened;
otherwise the database is opened, execCliArgs may handle an option and
exit, and the remaining branches close the database before the script
ends (implicit exit code 0). -/
def mainTrace (env : Env) (fs : FileSys) (mainDir : String) (args : List String)
    (flags : CliFlags) (db : List Row) : List Event :=
  match findDbFileLocation env fs mainDir with
  | Except.error _ => [Event.out OutLine.fatalDbNotFound, Event.exit 1]
  | Except.ok _ =>
      Event.openDb ::
        (if 0 < args.length then
            let r := execCliArgsTrace flags args db
            if r.2 then r.1 else r.1 ++ mainRest args db
          else mainRest args db)

/-! Helper lemmas shared by the claim theorems. -/

/-- The empty string is the least string. -/
theorem empty_string_le (s : String) : "" ≤ s := by
  rw [String.le_iff_toList_le]
  simp

/-- Coalescing with the empty string is monotone from the SQLite
nullable-text order to the string order. -/
theorem getD_mono_of_optStrLe {x y : Option String} (h : optStrLe x y) :
    x.getD "" ≤ y.getD "" := by
  cases x with
  | none => exact empty_string_le _
  | some s =>
      cases y with
      | none => exact absurd h (fun hh => hh)
      | some t => exact h

/-- Any-over-suffixes respects functions that only look at NOCASE
comparison keys. -/
theorem tails_any_congr (f : List Char → Bool)
    (hf : ∀ s t : List Char, s.map charKey = t.map charKey → f s = f t) :
    ∀ s t : List Char, s.map charKey = t.map charKey →
      s.tails.any f = t.tails.any f := by
  intro s
  induction s with
  | nil =>
      intro t h
      cases t with
      | nil => rfl
      | cons b t2 => simp at h
  | cons a s2 ihs =>
      intro t h
      cases t with
      | nil => simp at h
      | cons b t2 =>
          simp only [List.map_cons, List.cons.injEq] at h
          obtain ⟨hab, hst⟩ := h
          have h1 : f (a :: s2) = f (b :: t2) := by
            apply hf
            simp [hab, hst]
          have h2 := ihs t2 hst
          simp [List.tails_cons, h1, h2]

/-- LIKE matching only depends on the NOCASE comparison keys of the
subject: two subjects equal up to ASCII case match exactly the same
patterns. -/
theorem likeChars_congr (ps : List Char) :
    ∀ s t : List Char, s.map charKey = t.map charKey →
      likeChars ps s = likeChars ps t := by
  induction ps with
  | nil =>
      intro s t h
      cases s with
      | nil =>
          cases t with
          | nil => rfl
          | cons b t2 => simp at h
      | cons a s2 =>
          cases t with
          | nil => simp at h
          | cons b t2 => simp [likeChars]
  | cons c ps ih =>
      intro s t h
      by_cases hc : c = '%'
      · subst hc
        simp only [likeChars, if_pos rfl]
        exact tails_any_congr (likeChars ps) ih s t h
      · cases s with
        | nil =>
            cases t with
            | nil => rfl
            | cons b t2 => simp at h
        | cons a s2 =>
            cases t with
            | nil => simp at h
            | cons b t2 =>
                simp only [List.map_cons, List.cons.injEq] at h
                obtain ⟨hab, hst⟩ := h
                simp only [likeChars, if_neg hc]
                rw [ih s2 t2 hst, hab]

/-- A table row that matches the pattern appears, projected, in the
search results. -/
theorem projectRow_mem_dbSearch {p : String} {db : List Row} {r : Row}
    (hmem : r ∈ db) (hmatch : matchesAcronym p r = true) :
    projectRow r ∈ dbSearch p db := by
  unfold dbSearch
  apply List.mem_map_of_mem
  rw [List.mem_insertionSort]
  exact List.mem_filter.mpr ⟨hmem, hmatch⟩

/-- Every search result is the projection of a stored row. -/
theorem of_mem_dbSearch {p : String} {db : List Row} {r : AcronymRecord}
    (h : r ∈ dbSearch p db) : ∃ row ∈ db, r = projectRow row := by
  unfold dbSearch at h
  obtain ⟨row, hrow, hr⟩ := List.mem_map.mp h
  rw [List.mem_insertionSort] at hrow
  exact ⟨row, (List.mem_filter.mp hrow).1, hr.symm⟩

/-- Every latest-records result is the projection of a stored row. -/
theorem of_mem_dbLatestRecords {db : List Row} {r : AcronymRecord}
    (h : r ∈ dbLatestRecords db) : ∃ row ∈ db, r = projectRow row := by
  unfold dbLatestRecords at h
  obtain ⟨row, hrow, hr⟩ := List.mem_map.mp h
  have hrow2 : row ∈ List.insertionSort rowidGe db :=
    (List.take_sublist 5 _).mem hrow
  rw [List.mem_insertionSort] at hrow2
  exact ⟨row, hrow2, hr.symm⟩

/-- Concrete rows used by the witnesses. -/
def apiTestRow : Row where
  rowid := 1
  acronym := some "API"
  definition := some "Application Programming Interface"
  source := some "general"
  description := some "A software interface"
  changed := some 1710315965

/-- Row whose Source, Description and Changed columns are NULL. -/
def nullFieldsRow : Row where
  rowid := 2
  acronym := some "TLA"
  definition := some "Three Letter Acronym"
  source := none
  description := none
  changed := none

/-! Claim theorems. -/

/-- C1: the search operation prepares a fixed SQL template with the
pattern passed only as a bound parameter; matching is LIKE under
NOCASE, so it only depends on the ASCII-case-folded comparison keys of
the acronym value; results are ordered by the source field ascending;
every stored row whose acronym matches is returned; in particular a
row with acronym API is returned for each of the patterns api, API and
Api. -/
theorem dbSearch_nocase_parameterized_ordered (p : String) (db : List Row) :
    (dbSearchPrepared p).template = SqlTemplate.searchByAcronym
    ∧ (dbSearchPrepared p).params = [p]
    ∧ (∀ s t : String, s.toList.map charKey = t.toList.map charKey →
        likeMatch p s = likeMatch p t)
    ∧ List.Pairwise (fun a b : AcronymRecord => a.source ≤ b.source) (dbSearch p db)
    ∧ (∀ r ∈ db, matchesAcronym p r = true → projectRow r ∈ dbSearch p db)
    ∧ (∀ row ∈ db, row.acronym = some "API" →
        projectRow row ∈ dbSearch "api" db ∧ projectRow row ∈ dbSearch "API" db
          ∧ projectRow row ∈ dbSearch "Api" db) := by
  refine ⟨rfl, rfl, ?_, ?_, ?_, ?_⟩
  · intro s t h
    exact likeChars_congr p.toList s.toList t.toList h
  · unfold dbSearch
    exact (List.sorted_insertionSort sourceLe _).map projectRow
      (fun a b hab => getD_mono_of_optStrLe hab)
  · intro r hmem hmatch
    exact projectRow_mem_dbSearch hmem hmatch
  · intro row hrow hacr
    refine ⟨?_, ?_, ?_⟩ <;>
      · apply projectRow_mem_dbSearch hrow
        simp [matchesAcronym, hacr]
        decide

/-- C1 witness: the theorem applied to a one-row table holding the
acronym API, at each of the three patterns. -/
theorem dbSearch_nocase_parameterized_ordered_witness :
    projectRow apiTestRow ∈ dbSearch "api" [apiTestRow]
    ∧ projectRow apiTestRow ∈ dbSearch "API" [apiTestRow]
    ∧ projectRow apiTestRow ∈ dbSearch "Api" [apiTestRow] :=
  (dbSearch_nocase_parameterized_ordered "api" [apiTestRow]).2.2.2.2.2
    apiTestRow (by simp) rfl

/-- C2: with ACRODB set to a path holding a regular file, resolution
returns that path, whatever sits at the co-located fallback. -/
theorem findDbFileLocation_env_priority (env : Env) (fs : FileSys)
    (mainDir P : String) (hset : env.acrodb = some P)
    (hfile : fs.kind P = FileKind.file) (hne : P ≠ "") :
    findDbFileLocation env fs mainDir = Except.ok P := by
  simp [findDbFileLocation, getDBEnv, jsOrString, existsFile, hset, hfile, hne]

/-- C2 witness: the environment points at one file while a different
file sits at the co-located fallback, and the environment path wins. -/
theorem findDbFileLocation_env_priority_witness :
    findDbFileLocation ⟨some "/tmp/alt.db"⟩
      ⟨fun p => if p = "/tmp/alt.db" then FileKind.file
        else if p = "/opt/damt/acronyms.db" then FileKind.file
        else FileKind.missing⟩
      "/opt/damt" = Except.ok "/tmp/alt.db" :=
  findDbFileLocation_env_priority _ _ "/opt/damt" "/tmp/alt.db" rfl
    (by decide) (by decide)

/-- C3: when neither the environment path nor the co-located file is a
regular file, resolution fails, and the main body prints the fatal
diagnostic and exits with code 1 without opening any database. -/
theorem findDbFileLocation_neither_fatal (env : Env) (fs : FileSys)
    (mainDir : String)
    (h1 : fs.kind (env.acrodb.getD "") ≠ FileKind.file)
    (h2 : fs.kind (joinPath mainDir "acronyms.db") ≠ FileKind.file) :
    findDbFileLocation env fs mainDir =
      Except.error "findDbFileLocation failed to locate a valid database filename."
    ∧ ∀ args flags db, mainTrace env fs mainDir args flags db =
        [Event.out OutLine.fatalDbNotFound, Event.exit 1] := by
  have hloc : findDbFileLocation env fs mainDir =
      Except.error "findDbFileLocation failed to locate a valid database filename." := by
    simp [findDbFileLocation, getDBEnv, getLocalDBFile, jsOrString, existsFile, h1, h2]
  exact ⟨hloc, fun args flags db => by simp [mainTrace, hloc]⟩

/-- C3 witness: an empty filesystem, an environment pointing nowhere,
and the resulting failure plus fatal trace. -/
theorem findDbFileLocation_neither_fatal_witness :
    findDbFileLocation ⟨some "/nope.db"⟩ ⟨fun _ => FileKind.missing⟩ "/opt/damt" =
      Except.error "findDbFileLocation failed to locate a valid database filename."
    ∧ mainTrace ⟨some "/nope.db"⟩ ⟨fun _ => FileKind.missing⟩ "/opt/damt" []
        ⟨false, false, false, false⟩ [] =
      [Event.out OutLine.fatalDbNotFound, Event.exit 1] :=
  ⟨(findDbFileLocation_neither_fatal _ _ _ (by decide) (by decide)).1,
    (findDbFileLocation_neither_fatal _ _ _ (by decide) (by decide)).2 [] _ []⟩

/-- C4: the latest operation returns projections of stored rows (the
same field coalescing as search), ordered by row identifier
descending, and truncated to the limit of five. -/
theorem dbLatestRecords_ordered_truncated (db : List Row) :
    List.Pairwise (fun a b : AcronymRecord => b.rowid ≤ a.rowid) (dbLatestRecords db)
    ∧ (dbLatestRecords db).length = min 5 db.length
    ∧ ∀ r ∈ dbLatestRecords db, ∃ row ∈ db, r = projectRow row := by
  refine ⟨?_, ?_, fun r hr => of_mem_dbLatestRecords hr⟩
  · unfold dbLatestRecords
    exact (((List.sorted_insertionSort rowidGe db).sublist
      (List.take_sublist 5 _)).map projectRow (fun a b hab => hab))
  · unfold dbLatestRecords
    rw [List.length_map, List.length_take, List.length_insertionSort]

/-- C4 witness: the projection conjunct applied on a one-row table. -/
theorem dbLatestRecords_ordered_truncated_witness :
    ∃ row ∈ [apiTestRow], projectRow apiTestRow = projectRow row :=
  (dbLatestRecords_ordered_truncated [apiTestRow]).2.2
    (projectRow apiTestRow) (by decide)

/-- C5: every record surfaced by search or latest coalesces NULL in
each of the four textual columns to the empty string. -/
theorem query_nulls_coalesced (db : List Row) (p : String) (r : AcronymRecord)
    (h : r ∈ dbSearch p db ∨ r ∈ dbLatestRecords db) :
    ∃ row ∈ db, r.acronym = row.acronym.getD ""
      ∧ r.definition = row.definition.getD ""
      ∧ r.source = row.source.getD ""
      ∧ r.description = row.description.getD "" := by
  obtain ⟨row, hrow, hr⟩ := h.elim of_mem_dbSearch of_mem_dbLatestRecords
  subst hr
  exact ⟨row, hrow, rfl, rfl, rfl, rfl⟩

/-- C5 witness: a row with NULL Source and Description read back
through search surfaces empty strings. -/
theorem query_nulls_coalesced_witness :
    ∃ row ∈ [nullFieldsRow],
      (projectRow nullFieldsRow).acronym = row.acronym.getD ""
      ∧ (projectRow nullFieldsRow).definition = row.definition.getD ""
      ∧ (projectRow nullFieldsRow).source = row.source.getD ""
      ∧ (projectRow nullFieldsRow).description = row.description.getD "" :=
  query_nulls_coalesced [nullFieldsRow] "TLA" (projectRow nullFieldsRow)
    (Or.inl (by decide))

/-- C6: the timestamp formatter renders epoch 1710315965 as the
documented display string Wed, 13 March 2024 at 07:46:05, holding the
short weekday, the day 13, the month March, the year 2024 and the
24-hour time 07:46:05 in the documented order. -/
theorem getDisplayDateTime_epoch_example :
    getDisplayDateTime 1710315965 = "Wed, 13 March 2024 at 07:46:05" := by
  decide

/-- C7: every epoch outside the representable Temporal range yields
the UNKNOWN sentinel; the embedding is a total function, so no
exception reaches the caller. -/
theorem getDisplayDateTime_out_of_range (e : Int)
    (h : e < -temporalMaxEpochSeconds ∨ temporalMaxEpochSeconds < e) :
    getDisplayDateTime e = "UNKNOWN" := by
  unfold getDisplayDateTime
  rw [if_pos h]

/-- C7 witness: one second past the largest representable instant. -/
theorem getDisplayDateTime_out_of_range_witness :
    getDisplayDateTime 8640000000001 = "UNKNOWN" :=
  getDisplayDateTime_out_of_range 8640000000001 (Or.inr (by decide))

/-- C8: ACRODB set to the empty string or to a directory behaves as if
the variable were unset, and resolution falls through to the
co-located source. -/
theorem env_empty_or_dir_falls_through (env : Env) (fs : FileSys)
    (mainDir : String)
    (h : env.acrodb = some ""
      ∨ ∃ d, env.acrodb = some d ∧ fs.kind d = FileKind.dir)
    (hroot : fs.kind "" ≠ FileKind.file) :
    getDBEnv env fs = none
    ∧ findDbFileLocation env fs mainDir = findDbFileLocation ⟨none⟩ fs mainDir := by
  have hnone : getDBEnv env fs = none := by
    cases h with
    | inl he => simp [getDBEnv, he, existsFile, hroot]
    | inr hd =>
        obtain ⟨d, hd1, hd2⟩ := hd
        simp [getDBEnv, hd1, existsFile, hd2]
  have hnone2 : getDBEnv ⟨none⟩ fs = none := by
    simp [getDBEnv, existsFile, hroot]
  refine ⟨hnone, ?_⟩
  unfold findDbFileLocation
  rw [hnone, hnone2]

/-- C8 witness: an empty-string ACRODB with a valid co-located file
resolves to the co-located file. -/
theorem env_empty_or_dir_falls_through_witness :
    getDBEnv ⟨some ""⟩
      ⟨fun p => if p = "/opt/damt/acronyms.db" then FileKind.file
        else FileKind.missing⟩ = none
    ∧ findDbFileLocation ⟨some ""⟩
        ⟨fun p => if p = "/opt/damt/acronyms.db" then FileKind.file
          else FileKind.missing⟩ "/opt/damt" =
      findDbFileLocation ⟨none⟩
        ⟨fun p => if p = "/opt/damt/acronyms.db" then FileKind.file
          else FileKind.missing⟩ "/opt/damt" :=
  env_empty_or_dir_falls_through _ _ "/opt/damt" (Or.inl rfl) (by decide)

/-- Output events carry no close event. -/
theorem count_closeDb_map_out (l : List OutLine) :
    (l.map Event.out).count Event.closeDb = 0 :=
  List.count_eq_zero.mpr (by simp)

/-- Each exiting branch of execCliArgs closes the database exactly
once; the fall-through branch does not close it. -/
theorem execCliArgsTrace_count (flags : CliFlags) (args : List String)
    (db : List Row) :
    (execCliArgsTrace flags args db).1.count Event.closeDb =
      if (execCliArgsTrace flags args db).2 then 1 else 0 := by
  unfold execCliArgsTrace
  by_cases hs : flags.search <;> by_cases hl : flags.latest <;>
    by_cases hh : flags.help <;> by_cases hv : flags.version <;>
      simp [hs, hl, hh, hv, List.count_append, count_closeDb_map_out,
        List.count_cons]

/-- Both continuations of the main body after execCliArgs returns
close the database exactly once. -/
theorem mainRest_count (args : List String) (db : List Row) :
    (mainRest args db).count Event.closeDb = 1 := by
  unfold mainRest
  by_cases h : args.length = 1 <;>
    simp [h, List.count_append, List.count_cons, count_closeDb_map_out]

/-- C9: close is idempotent on the session handle, and on every
control-flow path of the main body the database is closed exactly once
when it was opened and never otherwise. -/
theorem session_closed_once_and_close_idempotent (env : Env) (fs : FileSys)
    (mainDir : String) (args : List String) (flags : CliFlags) (db : List Row) :
    (mainTrace env fs mainDir args flags db).count Event.closeDb =
      (if Event.openDb ∈ mainTrace env fs mainDir args flags db then 1 else 0)
    ∧ ∀ s : Session, closeSession (closeSession s) = closeSession s := by
  refine ⟨?_, fun s => rfl⟩
  unfold mainTrace
  cases hloc : findDbFileLocation env fs mainDir with
  | error e => simp
  | ok p =>
      have htail :
          ((if 0 < args.length then
              (if (execCliArgsTrace flags args db).2 then
                  (execCliArgsTrace flags args db).1
                else (execCliArgsTrace flags args db).1 ++ mainRest args db)
            else mainRest args db) : List Event).count Event.closeDb = 1 := by
        by_cases hargs : 0 < args.length
        · rw [if_pos hargs]
          by_cases hex : (execCliArgsTrace flags args db).2
          · rw [if_pos hex, execCliArgsTrace_count, if_pos hex]
          · rw [if_neg hex, List.count_append, execCliArgsTrace_count,
              if_neg hex, mainRest_count]
        · rw [if_neg hargs, mainRest_count]
      simp [List.count_cons, htail]

/-- C10: with the search option truthy but no second raw argument to
serve as the search term, the run prints nothing at all, not even the
match-count summary, closes the database once and exits with code 0. -/
theorem search_flag_without_term_silent (env : Env) (fs : FileSys)
    (mainDir : String) (args : List String) (flags : CliFlags) (db : List Row)
    (loc : String) (hs : flags.search = true) (hlen : 0 < args.length)
    (harg : args[1]? = none)
    (hloc : findDbFileLocation env fs mainDir = Except.ok loc) :
    dbSearchOutput (args[1]?) db = []
    ∧ mainTrace env fs mainDir args flags db =
        [Event.openDb, Event.closeDb, Event.exit 0] := by
  refine ⟨by rw [harg]; rfl, ?_⟩
  unfold mainTrace
  rw [hloc]
  simp [execCliArgsTrace, hs, hlen, harg, dbSearchOutput]

/-- C10 witness: running with the single argument -s against a located
database produces the silent open-close-exit trace. -/
theorem search_flag_without_term_silent_witness :
    dbSearchOutput (["-s"][1]?) ([] : List Row) = []
    ∧ mainTrace ⟨some "/tmp/alt.db"⟩
        ⟨fun p => if p = "/tmp/alt.db" then FileKind.file else FileKind.missing⟩
        "/opt/damt" ["-s"] ⟨true, false, false, false⟩ [] =
      [Event.openDb, Event.closeDb, Event.exit 0] :=
  search_flag_without_term_silent _ _ _ _ _ _ "/tmp/alt.db" rfl (by decide)
    rfl rfl

end Damt
